import Mathlib

/-!
Verification development for the FTPUploader upload engine
(src/RustFTP/src/ftp_engine.rs and src/RustFTP/src/lib.rs).

The Rust sources are shallowly embedded as executable Lean definitions:
machine integers become Nat (u64 arithmetic in record_failure stays well
below 2^64, so no wraparound modelling is needed), f64 time values become
Rat, and calls into external collaborators (the chrono timestamp parser,
the xxh3 hash, the SQLite hash database) become explicit function
parameters.  Stateful Rust code (the connection manager atomics, the
session registry, the session state behind its mutex) is embedded as
explicit state passing, and the observable effects of an iteration
(status writes, notifications, FTP commands, session file writes) are
reified as an event list.
-/

/-- Substring test on character lists: true iff needle occurs as a
contiguous infix of the haystack.  Mirrors Rust str::contains. -/
def charsContain (needle : List Char) : List Char → Bool
  | [] => needle.isEmpty
  | c :: rest => needle.isPrefixOf (c :: rest) || charsContain needle rest

/-- Substring test on strings, mirroring Rust str::contains. -/
def strContains (s pat : String) : Bool :=
  charsContain pat.data s.data

/-- ASCII-faithful model of Rust str::to_lowercase (every signal and
mode string compared in the source is ASCII). -/
def strToLower (s : String) : String :=
  ⟨s.data.map Char.toLower⟩

/-- Mirrors Rust str::starts_with on a string pattern. -/
def strStartsWith (s p : String) : Bool :=
  p.data.isPrefixOf s.data

/-- Mirrors Rust str::ends_with on a string pattern. -/
def strEndsWith (s p : String) : Bool :=
  p.data.reverse.isPrefixOf s.data.reverse

/-- Split a character list at a separator character; mirrors Rust
str::split with a char pattern. -/
def splitCharList (sep : Char) : List Char → List (List Char)
  | [] => [[]]
  | c :: rest =>
    match splitCharList sep rest with
    | h :: t => if c == sep then [] :: h :: t else (c :: h) :: t
    | [] => [[]]

/-- Split a path string on '/'. -/
def splitSlash (s : String) : List String :=
  (splitCharList '/' s.data).map (fun l => ⟨l⟩)

/-- Embeds ConnectionManager::is_server_rejection_error
(ftp_engine.rs lines 219-231): case-insensitive substring match against
the server-rejection signal list. -/
def isServerRejectionError (msg : String) : Bool :=
  let l := strToLower msg
  strContains l "too many connections" ||
  strContains l "connection limit" ||
  strContains l "max connections" ||
  strContains l "server full" ||
  strContains l "connection refused" ||
  strContains l "service unavailable" ||
  strContains l "421" ||
  strContains l "530" ||
  strContains l "exceeded" ||
  strContains l "busy"

/-- Embeds ConnectionManager::is_network_error
(ftp_engine.rs lines 233-241). -/
def isNetworkError (msg : String) : Bool :=
  let l := strToLower msg
  strContains l "timeout" ||
  strContains l "connection reset" ||
  strContains l "network unreachable" ||
  strContains l "connection lost" ||
  strContains l "broken pipe" ||
  strContains l "connection aborted"

/-- The mutable state of the ConnectionManager (ftp_engine.rs lines
203-208): the failed_attempts counter and the sticky
server_limit_detected flag.  The last_failure_time field is a wall-clock
Instant used only for logging and is not modelled. -/
structure ConnState where
  failedAttempts : Nat
  serverLimitDetected : Bool
deriving Repr, DecidableEq

/-- Result of record_failure: the returned pair (is_server_rejection,
delay in whole seconds) together with the updated manager state. -/
@[ext]
structure RFResult where
  isRejection : Bool
  delaySecs : Nat
  cm : ConnState
deriving Repr, DecidableEq

/-- The fast-mode growth factor `(1.5_f64.powi(min p 3) as u64).max(1)`
from ftp_engine.rs line 284.  For p in 0..3 the f64 value 1.5^p is exact
(1, 1.5, 2.25, 3.375) and the `as u64` cast truncates toward zero, which
on these nonnegative exact values is exactly Nat division 3^p / 2^p. -/
def fastFactor (p : Nat) : Nat :=
  max ((3 ^ min p 3) / (2 ^ min p 3)) 1

/-- Base delay selection from ftp_engine.rs lines 262-280, keyed on the
retry mode and the two classification bits (rejection checked first). -/
def baseDelay (fastRetry isRej isNet : Bool) : Nat :=
  if fastRetry then
    if isRej then 2 else if isNet then 1 else 1
  else
    if isRej then 30 else if isNet then 5 else 10

/-- Exponential delay from ftp_engine.rs lines 282-288, where p is
attempts - 1. -/
def exponentialDelay (fastRetry : Bool) (base p : Nat) : Nat :=
  if fastRetry then base * fastFactor p else base * 2 ^ (min p 6)

/-- The delay computed by record_failure (ftp_engine.rs lines 282-305)
from the retry mode, the classification bits, attempts - 1, the
nanosecond reading and the mode cap: exponential delay plus the
time-derived jitter `nanos % max(delay/4, 1)`, clamped to the cap. -/
def failureDelay (fastRetry isRej isNet : Bool) (p nanos cap : Nat) : Nat :=
  let base := baseDelay fastRetry isRej isNet
  let expd := exponentialDelay fastRetry base p
  let jitterBound := max (expd / 4) 1
  min (expd + nanos % jitterBound) cap

/-- Embeds ConnectionManager::record_failure (ftp_engine.rs lines
243-306).  The wall-clock nanosecond reading used for jitter is passed
in as `nanos`.  sync_interval is an f64 modelled as Rat; the `as u64`
cast of `sync_interval.max(5.0)` is floor on nonnegative values. -/
def recordFailure (cm : ConnState) (msg : String) (syncInterval : Rat)
    (nanos : Nat) : RFResult :=
  let attempts := cm.failedAttempts + 1
  let isRej := isServerRejectionError msg
  let isNet := isNetworkError msg
  let limitDetected' := cm.serverLimitDetected || isRej
  let fastRetry : Bool := syncInterval < 5
  let maxDelay := if fastRetry then (max syncInterval 5).floor.toNat else 300
  { isRejection := isRej
    delaySecs := failureDelay fastRetry isRej isNet (attempts - 1) nanos maxDelay
    cm := { failedAttempts := attempts, serverLimitDetected := limitDetected' } }

/-- Embeds ConnectionManager::record_success (ftp_engine.rs lines
308-312): both counter and sticky flag are cleared. -/
def recordSuccess (_cm : ConnState) : ConnState :=
  { failedAttempts := 0, serverLimitDetected := false }

/-- Embeds ConnectionManager::should_reduce_connections (line 314). -/
def shouldReduceConnections (cm : ConnState) : Bool :=
  cm.serverLimitDetected

/-- Error class as used for base-delay selection in record_failure:
rejection takes priority over network, everything else is generic. -/
inductive ErrClass where
  | rejection
  | network
  | generic
deriving Repr, DecidableEq

/-- Classification of an error text, following the if-else priority of
record_failure (rejection first, then network, else generic). -/
def errClass (msg : String) : ErrClass :=
  if isServerRejectionError msg then .rejection
  else if isNetworkError msg then .network
  else .generic

/-- A peer presence entry of _monitored.json (ftp_engine.rs lines
80-87). -/
structure MonitorEntry where
  ip : String
  hostname : String
  profileName : String
  mode : String
  lastSeen : String
deriving Repr, DecidableEq

/-- The _monitored.json document (ftp_engine.rs lines 89-92). -/
structure MonitorFile where
  monitors : List MonitorEntry
deriving Repr, DecidableEq

/-- Fallback entry used to render the second warning branch; the code
indexes delete_monitors[0] after an is_empty check, so this default is
never observable. -/
def emptyEntry : MonitorEntry :=
  { ip := "", hostname := "", profileName := "", mode := "", lastSeen := "" }

/-- Embeds detect_monitor_conflicts (ftp_engine.rs lines 403-487).
Entries whose (hostname, profile_name) equals the current instance are
filtered out of both the delete-mode and keep-mode lists before any
branch is evaluated. -/
def detectMonitorConflicts (mf : MonitorFile) (currentMode currentHostname
    currentProfile ftpDirectory : String) : Option (String × String) :=
  let currentModeLower := strToLower currentMode
  let deleteMonitors := mf.monitors.filter fun m =>
    !(m.hostname == currentHostname && m.profileName == currentProfile) &&
      strToLower m.mode == "delete"
  let keepMonitors := mf.monitors.filter fun m =>
    !(m.hostname == currentHostname && m.profileName == currentProfile) &&
      strToLower m.mode == "keep"
  if deleteMonitors.length ≥ 2 then
    some ("critical",
      "Multiple FTPUploaders detected in FTP directory " ++ ftpDirectory ++
      ":\n\n" ++
      String.intercalate "\n" (deleteMonitors.map fun m =>
        "  • " ++ m.profileName ++ " (" ++ m.hostname ++ ") - DELETE mode") ++
      "\n\nCONFLICT: Multiple DELETE-mode instances will cause unpredictable file deletion!")
  else if !deleteMonitors.isEmpty && currentModeLower == "keep" then
    let m := deleteMonitors.headD emptyEntry
    some ("warning",
      "Another FTPUploader detected in FTP directory " ++ ftpDirectory ++
      ":\n\n  • " ++ m.profileName ++ " (" ++ m.hostname ++
      ") - DELETE mode\n  • This instance - KEEP mode\n\nWARNING: The DELETE-mode instance may remove files before you upload them!")
  else if currentModeLower == "delete" && !keepMonitors.isEmpty then
    some ("warning",
      "Other FTPUploaders detected in FTP directory " ++ ftpDirectory ++
      ":\n\n" ++
      String.intercalate "\n" (keepMonitors.map fun m =>
        "  • " ++ m.profileName ++ " (" ++ m.hostname ++ ") - KEEP mode") ++
      "\n  • This instance - DELETE mode\n\nWARNING: Your DELETE mode will affect their downloads!")
  else if keepMonitors.length ≥ 1 && currentModeLower == "keep" then
    some ("info",
      "Multiple FTPUploaders detected in FTP directory " ++ ftpDirectory ++
      " in KEEP mode. This is safe but redundant - all instances will upload the same files.")
  else
    none

/-- Removes every entry keyed like the current instance; used to state
that conflict detection ignores such entries. -/
def dropSelfEntries (mf : MonitorFile) (hostname profile : String) :
    MonitorFile :=
  { monitors := mf.monitors.filter fun m =>
      !(m.hostname == hostname && m.profileName == profile) }

/-- Number of entries carrying the given (hostname, profile_name) key. -/
def countOurKey (l : List MonitorEntry) (hostname profile : String) : Nat :=
  (l.filter fun e => e.hostname == hostname && e.profileName == profile).length

/-- The freshness test of write_monitor_file step 2 (ftp_engine.rs lines
614-632): keep an entry iff its last_seen parses and is strictly newer
than now minus 5 minutes; unparseable timestamps are dropped.  The
external chrono RFC 3339 parser is the parameter `parseTime`, returning
an absolute time in seconds. -/
def isFreshEntry (parseTime : String → Option Int) (now : Int)
    (e : MonitorEntry) : Bool :=
  match parseTime e.lastSeen with
  | some t => decide (now - 300 < t)
  | none => false

/-- The upsert of write_monitor_file step 3 (ftp_engine.rs lines
638-657): replace the first entry matching (hostname, profile_name),
or append our entry at the end when none matches. -/
def upsertOurEntry (our : MonitorEntry) (hostname profile : String) :
    List MonitorEntry → List MonitorEntry
  | [] => [our]
  | e :: rest =>
    if e.hostname == hostname && e.profileName == profile then our :: rest
    else e :: upsertOurEntry our hostname profile rest

/-- The presence entry written for this instance: mode is the literal
"upload" (ftp_engine.rs lines 639-645); `renderTime` is the external
chrono to_rfc3339 serializer. -/
def mkOurEntry (ip hostname profile : String) (renderTime : Int → String)
    (now : Int) : MonitorEntry :=
  { ip := ip, hostname := hostname, profileName := profile,
    mode := "upload", lastSeen := renderTime now }

/-- The document-construction core of write_monitor_file (ftp_engine.rs
lines 587-670): staleness filtering followed by the upsert of this
instance.  Serialization and the FTP upload of the result are external
effects and are not part of the constructed document. -/
def buildMonitorDoc (parseTime : String → Option Int)
    (renderTime : Int → String) (now : Int)
    (hostname ip profile : String) (existing : MonitorFile) : MonitorFile :=
  let filtered := existing.monitors.filter (isFreshEntry parseTime now)
  let our := mkOurEntry ip hostname profile renderTime now
  { monitors := upsertOurEntry our hostname profile filtered }

mutual
/-- A local file-system tree: leaf files carry their size in bytes, and
directories carry their entries in read_dir order.  The forest of
entries is its own inductive so that the scan functions are structural
mutual recursions that the kernel can evaluate. -/
inductive FsTree where
  | file : String → Nat → FsTree
  | dir : String → FsForest → FsTree
/-- A sequence of file-system entries in read_dir order. -/
inductive FsForest where
  | nil : FsForest
  | cons : FsTree → FsForest → FsForest
end

/-- Builds a forest from a list of trees. -/
def FsForest.ofList : List FsTree → FsForest
  | [] => .nil
  | t :: ts => .cons t (FsForest.ofList ts)

/-- The skip test of scan_dir_recursive (ftp_engine.rs line 1674): the
entry name starts with a dot, or is the FTPU-Sent directory. -/
def skipName (name : String) : Bool :=
  strStartsWith name "." || name == "FTPU-Sent"

/-- A path component that the active scanner lets through. -/
def allowedComp (c : String) : Bool :=
  !strStartsWith c "." && !(c == "FTPU-Sent")

mutual
/-- Embeds scan_dir_recursive (ftp_engine.rs lines 1659-1711) with the
relative path as an explicit component list: each entry is skipped when
skipName holds, directories are recursed into, files are emitted with
their path relative to the scan root. -/
def scanTree : FsTree → List String → List (List String × Nat)
  | FsTree.file n s, rel => if skipName n then [] else [(rel ++ [n], s)]
  | FsTree.dir n es, rel => if skipName n then [] else scanForest es (rel ++ [n])
/-- The per-directory loop of scan_dir_recursive over the entries. -/
def scanForest : FsForest → List String → List (List String × Nat)
  | FsForest.nil, _ => []
  | FsForest.cons t rest, rel => scanTree t rel ++ scanForest rest rel
end

mutual
/-- All files of a tree with their component paths, without any
filtering; used to characterize the scanner output. -/
def allFilesTree : FsTree → List (List String × Nat)
  | FsTree.file n s => [([n], s)]
  | FsTree.dir n es => (allFilesForest es).map (fun x => (n :: x.1, x.2))
/-- All files of a forest with their component paths. -/
def allFilesForest : FsForest → List (List String × Nat)
  | FsForest.nil => []
  | FsForest.cons t rest => allFilesTree t ++ allFilesForest rest
end

/-- Embeds scan_local_directory_for_files (ftp_engine.rs lines
1624-1719) on an abstract tree: the recursive walk from the source root,
with the relative path rendered the way strip_prefix renders it. -/
def scanLocalDirectoryForFiles (tree : FsForest) : List (String × Nat) :=
  (scanForest tree []).map (fun x => (String.intercalate "/" x.1, x.2))

/-- Modelled from the spec (section 4.E) and the claim wording, for
comparison with the source scanner: the temp/system patterns
*.filepart, ._*, Thumbs.db, .DS_Store, .Trash*, desktop.ini, ~$*,
*.tmp, *.temp that the claim says are excluded. -/
def claimedTempPattern (n : String) : Bool :=
  strEndsWith n ".filepart" || strStartsWith n "._" || n == "Thumbs.db" ||
  n == ".DS_Store" || strStartsWith n ".Trash" || n == "desktop.ini" ||
  strStartsWith n "~$" || strEndsWith n ".tmp" || strEndsWith n ".temp"

/-- The immutable per-session configuration (ftp_engine.rs lines 14-30);
f64 time values are modelled as Rat. -/
structure FTPConfig where
  serverAddress : String
  port : Nat
  username : String
  password : String
  remoteDestination : String
  localSourcePath : String
  respectFilePaths : Bool
  syncInterval : Rat
  stabilizationInterval : Nat
  uploadAggressiveness : Nat
  autoTuneAggressiveness : Bool
  configId : String
  configName : String
  sessionId : String
deriving Repr, DecidableEq

/-- Embeds compute_file_hash (ftp_engine.rs lines 911-914): the
metadata string `remote_dir|filename|size|mtime` fed to the external
xxh3_64 hash, passed in as `xxh`. -/
def computeFileHash (xxh : String → Nat) (filename remoteDir : String)
    (size : Nat) (modTime : Int) : Nat :=
  xxh (remoteDir ++ "|" ++ filename ++ "|" ++ toString size ++ "|" ++
    toString modTime)

/-- The session state behind its mutex (ftp_engine.rs lines 95-117);
start_time, current_operation and the error list do not affect any
claim-relevant behavior but errors and speeds are kept for fidelity. -/
structure SessionState where
  totalFiles : Nat
  totalBytes : Nat
  totalUploadTime : Rat
  fileSpeeds : List Rat
deriving Repr, DecidableEq

/-- SessionState::new (ftp_engine.rs lines 107-117). -/
def SessionState.new : SessionState :=
  { totalFiles := 0, totalBytes := 0, totalUploadTime := 0, fileSpeeds := [] }

/-- SessionState::add_file_upload (ftp_engine.rs lines 123-133). -/
def SessionState.addFileUpload (st : SessionState) (bytes : Nat)
    (uploadTime : Rat) : SessionState :=
  { totalFiles := st.totalFiles + 1
    totalBytes := st.totalBytes + bytes
    totalUploadTime := st.totalUploadTime + uploadTime
    fileSpeeds :=
      if 0 < uploadTime then
        st.fileSpeeds ++ [((bytes : Rat) / 1024 / 1024) / uploadTime]
      else st.fileSpeeds }

/-- SessionState::get_average_speed_mbps (ftp_engine.rs lines 139-144). -/
def SessionState.getAverageSpeedMbps (st : SessionState) : Rat :=
  if st.fileSpeeds.isEmpty then 0
  else st.fileSpeeds.sum / (st.fileSpeeds.length : Rat)

/-- The session report serialized to the session file (ftp_engine.rs
lines 167-175). -/
structure SessionReport where
  sessionId : String
  configId : String
  totalFiles : Nat
  totalBytes : Nat
  totalTimeSecs : Rat
  averageSpeedMbps : Rat
deriving Repr, DecidableEq

/-- The report built by send_session_report (ftp_engine.rs lines
2746-2757) before it overwrites the session file. -/
def mkSessionReport (cfg : FTPConfig) (st : SessionState) : SessionReport :=
  { sessionId := cfg.sessionId, configId := cfg.configId
    totalFiles := st.totalFiles, totalBytes := st.totalBytes
    totalTimeSecs := st.totalUploadTime
    averageSpeedMbps := st.getAverageSpeedMbps }

/-- Observable effects of the engine, in program order: status-file
writes, FFI notifications by channel, FTP commands (STOR, MKD, and the
retrieval of _monitored.json), session-file writes and result-file
writes. -/
inductive Ev where
  | status (stage filename : String)
  | notify (ntype message : String)
  | stor (target : String)
  | mkd (path : String)
  | monitorRead (dir : String)
  | sessionWrite (report : SessionReport)
  | resultWrite (success : Bool) (filesProcessed : Nat)
deriving Repr, DecidableEq

/-- True on STOR events. -/
def Ev.isStor : Ev → Bool
  | .stor _ => true
  | _ => false

/-- True on retrievals of the _monitored.json file. -/
def Ev.isMonitorRead : Ev → Bool
  | .monitorRead _ => true
  | _ => false

/-- True on notifications sent on the monitor_warning channel. -/
def Ev.isMonitorWarn : Ev → Bool
  | .notify ntype _ => ntype == "monitor_warning"
  | _ => false

/-- The peer-coordination events of a trace: retrievals of
_monitored.json and notifications on the monitor_warning channel. -/
def peerFilter (evs : List Ev) : List Ev :=
  evs.filter (fun e => e.isMonitorRead || e.isMonitorWarn)

/-- Number of STOR commands in a trace. -/
def storCount (evs : List Ev) : Nat :=
  (evs.filter Ev.isStor).length

/-- The total_files field of each session-file write, in order. -/
def sessionWriteTotals (evs : List Ev) : List Nat :=
  evs.filterMap fun e =>
    match e with
    | .sessionWrite r => some r.totalFiles
    | _ => none

/-- Content of the session file after a trace, given its prior content
and the external JSON serializer: each session write overwrites it. -/
def sessionFileAfter (render : SessionReport → String) (init : String)
    (evs : List Ev) : String :=
  evs.foldl
    (fun acc e =>
      match e with
      | .sessionWrite r => render r
      | _ => acc)
    init

/-- Drop trailing slash characters, mirroring trim_end_matches on '/'
(ftp_engine.rs line 2889). -/
def trimTrailingSlash (s : String) : String :=
  ⟨(s.data.reverse.dropWhile (· == '/')).reverse⟩

/-- Split a path on '/' keeping nonempty components, mirroring
trim_matches plus split plus the nonempty filter (line 2895). -/
def splitPathComponents (s : String) : List String :=
  (splitSlash s).filter (fun c => !(c == ""))

/-- The cumulative absolute directory paths visited by the recursive
MKD loop (ftp_engine.rs lines 2896-2914): /a, /a/b, ... -/
def cumulativePaths (comps : List String) : List String :=
  (comps.foldl
    (fun (acc : List String × String) c =>
      let p := if acc.2 == "" then "/" ++ c else acc.2 ++ "/" ++ c
      (acc.1 ++ [p], p))
    ([], "")).1

/-- The last '/'-separated component of a path, mirroring
PathBuf::file_name with the filename fallback (lines 2874-2876). -/
def lastPathComponent (path fallback : String) : String :=
  match (splitPathComponents path).getLast? with
  | some c => c
  | none => fallback

/-- The parent of a relative path, as a string: the components without
the last one, mirroring PathBuf::parent (line 2882). -/
def parentPathString (s : String) : String :=
  String.intercalate "/" (splitSlash s).dropLast

/-- The FTP commands issued by upload_file (ftp_engine.rs lines
2851-2942): the MKD calls for missing parents when respect_file_paths
holds and the target has directory components, then the single STOR of
the remote filename.  Transfer-type commands carry no claim-relevant
state and are not reified. -/
def uploadFileEvents (cfg : FTPConfig) (filename localPath : String) :
    List Ev :=
  let remoteFilename :=
    if cfg.respectFilePaths then filename
    else lastPathComponent localPath filename
  let mkds :=
    if cfg.respectFilePaths && strContains remoteFilename "/" then
      let parent := parentPathString remoteFilename
      if parent == "" then []
      else
        let fullRemoteDir :=
          if cfg.remoteDestination == "/" then "/" ++ parent
          else trimTrailingSlash cfg.remoteDestination ++ "/" ++ parent
        (cumulativePaths (splitPathComponents fullRemoteDir)).map Ev.mkd
    else []
  mkds ++ [Ev.stor remoteFilename]

/-- Outcome of the remote SIZE query (ftp_engine.rs lines 2337-2361):
a numeric size, a missing file, or a failed command. -/
inductive SizeRes where
  | found (n : Nat)
  | notFound
  | sizeErr
deriving Repr, DecidableEq

/-- The external world as seen by one pass of the per-file retry loop:
outcomes of connect, login, cwd, SIZE, MDTM, the wall clock, the upload
and the local move, the error texts of failing steps and the nanosecond
reading used for backoff jitter. -/
structure AttemptEnv where
  connectOk : Bool
  connectErr : String
  loginOk : Bool
  loginErr : String
  cwdOk : Bool
  sizeRes : SizeRes
  mdtm : Option Int
  now : Int
  uploadOk : Bool
  uploadErr : String
  moveOk : Bool
  uploadTime : Rat
  nanos : Nat
deriving Repr, DecidableEq

/-- State threaded through per-file processing: the shared connection
manager, the mutex-protected session state and the files_processed
counter. -/
structure FileStepState where
  cm : ConnState
  st : SessionState
  processed : Nat
deriving Repr, DecidableEq

/-- Result of one pass of the per-file retry loop: either the loop
continues with another attempt, or the file is done with a success
flag. -/
inductive StepRes where
  | retry (evs : List Ev) (s : FileStepState)
  | done (ok : Bool) (evs : List Ev) (s : FileStepState)

/-- One pass of the per-file loop body of process_files (ftp_engine.rs
lines 2208-2608), for attempt number `attempt` (already incremented).
`mode` stands for the mode string that the source writes as the literal
"upload" in the guards `"upload" == "keep"` (lines 1973 and 2364);
`hashes` is the loaded hash map and `xxh` the external fingerprint
hash.  max_connection_retries is 3 (line 2205). -/
def processFileAttempt (cfg : FTPConfig) (mode : String)
    (hashes : List (String × Nat)) (xxh : String → Nat)
    (fname localPath : String) (env : AttemptEnv) (attempt : Nat)
    (s : FileStepState) : StepRes :=
  if !env.connectOk then
    let r := recordFailure s.cm ("Failed to connect: " ++ env.connectErr)
      cfg.syncInterval env.nanos
    let evs := [Ev.status
      (if r.isRejection then "Server Rejection" else "Connection failed") fname]
    if attempt ≥ 3 then .done false evs { s with cm := r.cm }
    else .retry evs { s with cm := r.cm }
  else if !env.loginOk then
    let r := recordFailure s.cm ("Failed to login: " ++ env.loginErr)
      cfg.syncInterval env.nanos
    let evs := [Ev.status
      (if r.isRejection then "Login Rejection" else "Login failed") fname]
    if attempt ≥ 3 then .done false evs { s with cm := r.cm }
    else .retry evs { s with cm := r.cm }
  else if !env.cwdOk then
    .done false [] s
  else
    match env.sizeRes with
    | .notFound => .done true [] s
    | sz =>
      let initialSize : Option Nat :=
        match sz with
        | .found n => some n
        | _ => none
      let key := localPath ++ "|" ++ fname
      let modTime := env.mdtm.getD env.now
      let currentHash :=
        computeFileHash xxh fname localPath (initialSize.getD 0) modTime
      let skipUnchanged :=
        mode == "keep" &&
          match hashes.lookup key with
          | some h => h == currentHash
          | none => false
      if skipUnchanged then
        .done true [Ev.status "Skipped (unchanged)" fname]
          { s with processed := s.processed + 1 }
      else
        let upEvs := uploadFileEvents cfg fname localPath
        if env.uploadOk then
          let st' := s.st.addFileUpload (initialSize.getD 0) env.uploadTime
          let sessEvs :=
            if 0 < st'.totalFiles && st'.totalFiles % 3 == 0 then
              [Ev.sessionWrite (mkSessionReport cfg st')]
            else []
          let moveEvs :=
            if env.moveOk then
              [Ev.notify "success" ("✅ Uploaded: " ++ fname)]
            else
              [Ev.notify "warning"
                ("⚠️ Uploaded " ++ fname ++ " but failed to move to FTPU-Sent")]
          .done true
            (upEvs ++
              [Ev.status "Uploaded" fname, Ev.status "Verified" fname,
                Ev.notify "success" ("Uploaded " ++ fname)] ++
              sessEvs ++ moveEvs ++
              [Ev.status "FileComplete" fname, Ev.status "Complete" fname])
            { cm := recordSuccess s.cm, st := st', processed := s.processed + 1 }
        else
          let r := recordFailure s.cm ("Download failed: " ++ env.uploadErr)
            cfg.syncInterval env.nanos
          let evs := upEvs ++ [Ev.status "Download failed" fname]
          if attempt ≥ 3 then .done false evs { s with cm := r.cm }
          else .retry evs { s with cm := r.cm }

/-- The per-file retry loop (ftp_engine.rs lines 2205-2608), driven by
fuel.  The loop runs at most max_connection_retries = 3 passes because
every failing pass with attempt ≥ 3 breaks, so with fuel 3 the
fuel-exhaustion branch is unreachable. -/
def processFileLoop (cfg : FTPConfig) (mode : String)
    (hashes : List (String × Nat)) (xxh : String → Nat)
    (fname localPath : String) (envs : Nat → AttemptEnv) :
    Nat → Nat → FileStepState → Bool × List Ev × FileStepState
  | 0, _, s => (false, [], s)
  | fuel + 1, attempt, s =>
    match processFileAttempt cfg mode hashes xxh fname localPath
        (envs (attempt + 1)) (attempt + 1) s with
    | .done ok evs s' => (ok, evs, s')
    | .retry evs s' =>
      let rest := processFileLoop cfg mode hashes xxh fname localPath envs
        fuel (attempt + 1) s'
      (rest.1, evs ++ rest.2.1, rest.2.2)

/-- An upload candidate as handed to the parallel workers (ftp_engine.rs
lines 1556-1558): the relative path travels in the filename slot and the
full local path in the remote_dir slot, together with the external
outcomes of each connection attempt for this file. -/
structure FileJob where
  filename : String
  localPath : String
  envs : Nat → AttemptEnv

/-- Processing of a single candidate by a worker (ftp_engine.rs lines
2172-2610): the shutdown check, the initial Processing status, then the
retry loop. -/
def processOneFile (cfg : FTPConfig) (mode : String)
    (hashes : List (String × Nat)) (xxh : String → Nat) (job : FileJob)
    (shutdownFlag shutdownFileExists : Bool) (s : FileStepState) :
    Bool × List Ev × FileStepState :=
  if shutdownFlag && shutdownFileExists then (false, [], s)
  else
    let r := processFileLoop cfg mode hashes xxh job.filename
      job.localPath job.envs 3 0 s
    (r.1, Ev.status "Processing" job.filename :: r.2.1, r.2.2)

/-- Events carried by a step result. -/
def StepRes.events : StepRes → List Ev
  | .retry evs _ => evs
  | .done _ evs _ => evs

/-- State carried by a step result. -/
def StepRes.state : StepRes → FileStepState
  | .retry _ s => s
  | .done _ _ s => s

/-- True when a step result leaves the retry loop. -/
def StepRes.isDone : StepRes → Bool
  | .retry _ _ => false
  | .done _ _ _ => true

/-- One step of the fold that serializes the parallel per-file map of
process_files: append the file events, thread the shared state, and
count the file as successful when its result is Ok. -/
def uploadFoldStep (cfg : FTPConfig) (mode : String)
    (hashes : List (String × Nat)) (xxh : String → Nat)
    (shutdownFlag shutdownFileExists : Bool)
    (acc : List Ev × FileStepState × Nat) (job : FileJob) :
    List Ev × FileStepState × Nat :=
  let r := processOneFile cfg mode hashes xxh job shutdownFlag
    shutdownFileExists acc.2.1
  (acc.1 ++ r.2.1, r.2.2, acc.2.2 + if r.1 then 1 else 0)

/-- Result of the upload phase: the value returned by process_files
(the count of successfully processed candidates), the event trace, the
final session state, the connection manager and the files_processed
counter. -/
structure PhaseResult where
  successCount : Nat
  events : List Ev
  finalState : SessionState
  cm : ConnState
  processedCounter : Nat

/-- Embeds process_files (ftp_engine.rs lines 1953-2682).  `mode` is the
mode string written as the literal "upload" in the source guard at line
1973; `dbHashes` models db::load_hashes_for_config, whose SQLite module
is not among the given sources, as an abstract hash-store snapshot.
Stabilization (lines 2091-2151) passes every candidate through after the
parallel sleep, returning early only when no candidate remains; the
parallel per-file map is serialized as a left fold, which fixes one
interleaving of the mutex-protected session updates. -/
def processFiles (cfg : FTPConfig) (mode : String)
    (dbHashes : List (String × Nat)) (xxh : String → Nat)
    (jobs : List FileJob) (shutdownFlag shutdownFileExists : Bool)
    (cm : ConnState) (_maxParallel : Nat) : PhaseResult :=
  let existingHashes := if mode == "keep" then dbHashes else []
  let evs0 := [Ev.status "Preparing parallel processing"
    (toString jobs.length ++ " total files")]
  if 0 < cfg.stabilizationInterval && jobs.isEmpty then
    { successCount := 0, events := evs0, finalState := SessionState.new,
      cm := cm, processedCounter := 0 }
  else
    let folded := jobs.foldl
      (uploadFoldStep cfg mode existingHashes xxh shutdownFlag shutdownFileExists)
      ([], { cm := cm, st := SessionState.new, processed := 0 }, 0)
    let succ := folded.2.2
    let failed := jobs.length - succ
    let st := folded.2.1.st
    let statusMessage :=
      if 0 < failed then
        "Processed " ++ toString succ ++ "/" ++ toString jobs.length ++
          " files (" ++ toString failed ++ " failed, will retry next cycle)"
      else "Processed " ++ toString succ ++ " files successfully"
    let finEvs := [Ev.status "Finished" statusMessage] ++
      (if 0 < st.totalFiles then [Ev.sessionWrite (mkSessionReport cfg st)]
       else [])
    { successCount := succ, events := evs0 ++ folded.1 ++ finEvs,
      finalState := st, cm := folded.2.1.cm,
      processedCounter := folded.2.1.processed }

/-- The mode string of this engine: the source writes the literal
"upload" wherever a mode is consulted (ftp_engine.rs lines 1973 and
2364) and advertises "upload" in the presence file (line 643). -/
def engineMode : String := "upload"

/-- The external world as seen by one iteration of the sync loop:
outcomes and error texts of the scanning connect and login, the shutdown
signals, the local source tree, and the per-file attempt environments
indexed by candidate position. -/
structure IterEnv where
  connectOk : Bool
  connectErr : String
  connNanos : Nat
  loginOk : Bool
  loginErr : String
  loginNanos : Nat
  shutdownFlag : Bool
  shutdownFileExists : Bool
  dirExists : Bool
  tree : FsForest
  jobEnvs : Nat → Nat → AttemptEnv

/-- The local-scan phase of an iteration (scan_local_directory_for_files,
ftp_engine.rs lines 1624-1719): shutdown check, Scanning status and
notifications, missing-directory warning, then the recursive walk. -/
def scanLocalPhase (cfg : FTPConfig) (env : IterEnv) :
    List Ev × List (String × Nat) :=
  if env.shutdownFlag || env.shutdownFileExists then ([], [])
  else
    let evs := [Ev.status "Scanning" cfg.localSourcePath,
      Ev.notify "info" ("Scanning " ++ cfg.localSourcePath)]
    if !env.dirExists then
      (evs ++ [Ev.notify "warning"
        ("Directory not found: " ++ cfg.localSourcePath)], [])
    else
      let files := scanLocalDirectoryForFiles env.tree
      (evs ++ [Ev.notify "info" ("Found " ++ toString files.length ++ " files")],
        files)

/-- Embeds process_single_iteration (ftp_engine.rs lines 1452-1621):
connect and login with backoff bookkeeping on failure, the local scan,
the empty-scan early exit, the worker-count reduction check, the upload
phase and the final result write.  The iteration number is received but,
as in the source, influences nothing on this path. -/
def processSingleIteration (cfg : FTPConfig) (xxh : String → Nat)
    (dbHashes : List (String × Nat)) (env : IterEnv) (_iteration : Nat)
    (cm : ConnState) : List Ev × ConnState :=
  let evs0 := [Ev.status "Connecting" ""]
  if !env.connectOk then
    let r := recordFailure cm ("Connection failed: " ++ env.connectErr)
      cfg.syncInterval env.connNanos
    (evs0 ++
      [Ev.status "Error" ("Connection failed (attempt " ++
        toString r.cm.failedAttempts ++ ")"),
       Ev.resultWrite false 0] ++
      (if r.cm.failedAttempts ≥ 2 then
        [Ev.notify "warning" ("Connection failed (attempt " ++
          toString r.cm.failedAttempts ++ "), retrying...")]
       else []), r.cm)
  else if !env.loginOk then
    let r := recordFailure cm ("Login failed: " ++ env.loginErr)
      cfg.syncInterval env.loginNanos
    (evs0 ++
      [Ev.status "Error" ("Login failed (attempt " ++
        toString r.cm.failedAttempts ++ ")"),
       Ev.notify "error" ("Login failed: " ++ env.loginErr),
       Ev.resultWrite false 0], r.cm)
  else
    let cm1 := recordSuccess cm
    let scanR := scanLocalPhase cfg env
    let evs2 := evs0 ++
      [Ev.status "Connected" "",
       Ev.notify "info" ("Connected to " ++ cfg.serverAddress)] ++ scanR.1
    if scanR.2.isEmpty then
      (evs2 ++ [Ev.notify "info" "No new files found",
        Ev.resultWrite true 0,
        Ev.status "Complete" "No files found, will retry after interval"], cm1)
    else
      let jobs := scanR.2.enum.map fun p =>
        ({ filename := p.2.1,
           localPath := cfg.localSourcePath ++ "/" ++ p.2.1,
           envs := env.jobEnvs p.1 } : FileJob)
      let maxConn :=
        if shouldReduceConnections cm1 then
          max (cfg.uploadAggressiveness / 4) 1
        else cfg.uploadAggressiveness
      let pr := processFiles cfg engineMode dbHashes xxh jobs
        env.shutdownFlag env.shutdownFileExists cm1 maxConn
      (evs2 ++ pr.events ++ [Ev.resultWrite true pr.successCount], pr.cm)

/-- The global FFI state touched by rust_ftp_stop (lib.rs lines 34-45):
the session registry maps session-id strings to sessions, and each
session owns a shutdown flag.  Flags are identified by an index so that
a flag outlives the removal of its registry entry, as the Arc shared
with the worker thread does. -/
structure StopState where
  registry : List (String × Nat)
  flags : Nat → Bool

/-- Result of rust_ftp_stop: the returned code, the new global state,
and whether the worker thread was joined (the source explicitly drops
the join handle instead, lib.rs lines 206-210). -/
structure StopResult where
  ret : Int
  state : StopState
  joinsWorker : Bool

/-- HashMap lookup of a session id. -/
def lookupSession (reg : List (String × Nat)) (id : String) : Option Nat :=
  (reg.find? (fun p => p.1 == id)).map (·.2)

/-- HashMap::remove of a session id (keys are unique in a HashMap; on
the association list this removes the first match). -/
def removeSession (reg : List (String × Nat)) (id : String) :
    List (String × Nat) :=
  reg.eraseP (fun p => p.1 == id)

/-- Embeds rust_ftp_stop (lib.rs lines 189-216) for a validly decoded
session-id string (null and non-UTF-8 arguments return -1 and -2 in the
FFI shell and never reach the registry): remove the entry if present,
set that shutdown flag, return 0 without joining; otherwise return -3
and touch nothing. -/
def rustFtpStop (st : StopState) (id : String) : StopResult :=
  match lookupSession st.registry id with
  | some fid =>
    let state' : StopState :=
      { registry := removeSession st.registry id
        flags := fun x => if x = fid then true else st.flags x }
    { ret := 0, state := state', joinsWorker := false }
  | none => { ret := -3, state := st, joinsWorker := false }

/-! Theorems.  Shared helper lemmas come first, then one theorem per
claim together with its witness or counterexample. -/

theorem fastFactor_eq (p : Nat) :
    fastFactor p = if p = 0 then 1 else if p = 1 then 1 else if p = 2 then 2 else 3 := by
  match p with
  | 0 => rfl
  | 1 => rfl
  | 2 => rfl
  | p + 3 =>
    simp only [fastFactor, min_eq_right (by omega : 3 ≤ p + 3)]
    rfl

theorem fastFactor_mono (p : Nat) : fastFactor p ≤ fastFactor (p + 1) := by
  rw [fastFactor_eq, fastFactor_eq]
  rcases p with _ | _ | _ | p <;> simp

theorem fastFactor_le_three (p : Nat) : fastFactor p ≤ 3 := by
  rw [fastFactor_eq]
  split_ifs <;> omega

theorem baseDelay_fast_le (isRej isNet : Bool) :
    baseDelay true isRej isNet ≤ 2 := by
  cases isRej <;> cases isNet <;> simp [baseDelay]

theorem baseDelay_normal_ge (isRej isNet : Bool) :
    5 ≤ baseDelay false isRej isNet := by
  cases isRej <;> cases isNet <;> simp [baseDelay]

theorem fast_jitter_zero (isRej isNet : Bool) (p nanos : Nat) :
    nanos % max (exponentialDelay true (baseDelay true isRej isNet) p / 4) 1 = 0 := by
  have hb := baseDelay_fast_le isRej isNet
  have hf := fastFactor_le_three p
  have hexp : exponentialDelay true (baseDelay true isRej isNet) p ≤ 6 := by
    simp only [exponentialDelay, if_true]
    calc baseDelay true isRej isNet * fastFactor p ≤ 2 * 3 :=
          Nat.mul_le_mul hb hf
      _ = 6 := rfl
  have h4 : exponentialDelay true (baseDelay true isRej isNet) p / 4 ≤ 1 := by
    omega
  rw [show max (exponentialDelay true (baseDelay true isRej isNet) p / 4) 1 = 1 by omega, Nat.mod_one]

theorem failureDelay_fast (isRej isNet : Bool) (p nanos cap : Nat) :
    failureDelay true isRej isNet p nanos cap =
      min (baseDelay true isRej isNet * fastFactor p) cap := by
  have hj := fast_jitter_zero isRej isNet p nanos
  simp only [failureDelay, hj, Nat.add_zero]
  simp [exponentialDelay]

theorem failureDelay_mono_fast (isRej isNet : Bool) (p nanos1 nanos2 cap : Nat) :
    failureDelay true isRej isNet p nanos1 cap ≤
      failureDelay true isRej isNet (p + 1) nanos2 cap := by
  rw [failureDelay_fast, failureDelay_fast]
  exact min_le_min (Nat.mul_le_mul_left _ (fastFactor_mono p)) le_rfl

theorem failureDelay_mono_normal (isRej isNet : Bool) (p nanos1 nanos2 : Nat) :
    failureDelay false isRej isNet p nanos1 300 ≤
      failureDelay false isRej isNet (p + 1) nanos2 300 := by
  have hb : 5 ≤ baseDelay false isRej isNet := baseDelay_normal_ge isRej isNet
  simp only [failureDelay, exponentialDelay, Bool.false_eq_true, if_false]
  set b := baseDelay false isRej isNet with hbdef
  set E1 := b * 2 ^ min p 6 with hE1
  set E2 := b * 2 ^ min (p + 1) 6 with hE2
  by_cases h6 : p < 6
  · have hmin : min (p + 1) 6 = min p 6 + 1 := by omega
    have h2 : E2 = 2 * E1 := by
      rw [hE2, hE1, hmin, pow_succ]
      ring
    have hE1pos : 1 ≤ E1 := by
      have h1 : 1 ≤ 2 ^ min p 6 := Nat.one_le_two_pow
      calc 1 ≤ 5 * 1 := by omega
        _ ≤ b * 2 ^ min p 6 := Nat.mul_le_mul hb h1
    have hj1 : nanos1 % max (E1 / 4) 1 < max (E1 / 4) 1 :=
      Nat.mod_lt _ (by omega)
    have hstep : E1 + nanos1 % max (E1 / 4) 1 ≤ E2 := by
      have hd : E1 / 4 ≤ E1 := Nat.div_le_self _ _
      omega
    exact min_le_min (le_trans hstep (Nat.le_add_right _ _)) le_rfl
  · have hmin1 : min p 6 = 6 := by omega
    have hmin2 : min (p + 1) 6 = 6 := by omega
    have h300 : (300 : Nat) ≤ E1 := by
      rw [hE1, hmin1]
      calc (300 : Nat) ≤ 5 * 64 := by norm_num
        _ ≤ b * 64 := Nat.mul_le_mul_right _ hb
        _ = b * 2 ^ (6 : Nat) := by norm_num
    have h300' : (300 : Nat) ≤ E2 := by
      rw [hE2, hmin2]
      calc (300 : Nat) ≤ 5 * 64 := by norm_num
        _ ≤ b * 64 := Nat.mul_le_mul_right _ hb
        _ = b * 2 ^ (6 : Nat) := by norm_num
    rw [min_eq_right (le_trans h300 (Nat.le_add_right _ _)),
      min_eq_right (le_trans h300' (Nat.le_add_right _ _))]

theorem recordFailure_isRejection (cm : ConnState) (msg : String) (si : Rat) (nanos : Nat) :
    (recordFailure cm msg si nanos).isRejection = isServerRejectionError msg := rfl

theorem recordFailure_cm (cm : ConnState) (msg : String) (si : Rat) (nanos : Nat) :
    (recordFailure cm msg si nanos).cm =
      ⟨cm.failedAttempts + 1, cm.serverLimitDetected || isServerRejectionError msg⟩ := rfl

theorem recordFailure_delaySecs (cm : ConnState) (msg : String) (si : Rat) (nanos : Nat) :
    (recordFailure cm msg si nanos).delaySecs =
      failureDelay (decide (si < 5)) (isServerRejectionError msg) (isNetworkError msg)
        cm.failedAttempts nanos
        (if decide (si < 5) = true then (max si 5).floor.toNat else 300) := rfl

theorem baseDelay_true_net (f n : Bool) : baseDelay f true n = baseDelay f true true := by
  cases f <;> simp [baseDelay]

theorem failureDelay_congr (f r1 n1 r2 n2 : Bool)
    (h : baseDelay f r1 n1 = baseDelay f r2 n2) (p nanos cap : Nat) :
    failureDelay f r1 n1 p nanos cap = failureDelay f r2 n2 p nanos cap := by
  simp only [failureDelay, exponentialDelay, h]

theorem baseDelay_congr_of_errClass (f : Bool) (msg1 msg2 : String)
    (h : errClass msg1 = errClass msg2) :
    baseDelay f (isServerRejectionError msg1) (isNetworkError msg1) =
      baseDelay f (isServerRejectionError msg2) (isNetworkError msg2) := by
  cases hR1 : isServerRejectionError msg1 <;> cases hR2 : isServerRejectionError msg2 <;>
    cases hN1 : isNetworkError msg1 <;> cases hN2 : isNetworkError msg2 <;>
    cases f <;>
    simp_all [errClass, baseDelay]

/-- C4, counterexample: the claim says the pre-jitter fast-mode delay is
base times 1.5 to the min(n-1,3), giving 3 s on the second consecutive
server rejection at sync_interval 3; the code truncates 1.5^k to u64
before multiplying, so the second rejection delay is 2 s, not 3 s. -/
theorem c4_counterexample :
    (recordFailure ⟨1, true⟩ "421" 3 17).delaySecs = 2 ∧
    (2 : Rat) * (3 / 2) ^ min (2 - 1 : Nat) 3 = 3 ∧
    ((recordFailure ⟨1, true⟩ "421" 3 17).delaySecs : Rat) ≠
      2 * (3 / 2) ^ min (2 - 1 : Nat) 3 := by
  have h1 : (recordFailure ⟨1, true⟩ "421" 3 17).delaySecs = 2 := by decide
  refine ⟨h1, by norm_num, ?_⟩
  rw [h1]
  norm_num

/-- C4, amended: in fast mode (sync_interval below 5 s) record_failure
classifies the text, returns delay base * max(trunc(1.5^min(n-1,3)), 1)
seconds with base 2 for server rejection and 1 for network or generic
errors, clamped to 5 s (the cap max(sync_interval, 5 s) truncated), the
time-derived jitter is always zero in this mode, and the state gains one
failure with the sticky flag set on rejection.  Three consecutive server
rejections hence yield delays 2 s, 2 s and 4 s. -/
theorem c4_amended (cm : ConnState) (msg : String) (si : Rat) (nanos : Nat)
    (hsi : si < 5) :
    (recordFailure cm msg si nanos).isRejection = isServerRejectionError msg ∧
    (recordFailure cm msg si nanos).delaySecs =
      min ((if isServerRejectionError msg then 2 else 1) * fastFactor cm.failedAttempts) 5 ∧
    (recordFailure cm msg si nanos).cm =
      ⟨cm.failedAttempts + 1, cm.serverLimitDetected || isServerRejectionError msg⟩ := by
  have hd : (decide (si < 5)) = true := decide_eq_true hsi
  have hcap : (max si 5).floor.toNat = 5 := by
    rw [max_eq_right hsi.le]
    decide
  have hbase : baseDelay true (isServerRejectionError msg) (isNetworkError msg) =
      if isServerRejectionError msg then 2 else 1 := by
    cases hR : isServerRejectionError msg <;> cases hN : isNetworkError msg <;>
      simp [baseDelay]
  refine ⟨recordFailure_isRejection cm msg si nanos, ?_, recordFailure_cm cm msg si nanos⟩
  rw [recordFailure_delaySecs, hd, if_pos rfl, hcap, failureDelay_fast, hbase]

/-- C4 witness: the amended theorem applied at sync_interval 3 with the
error text 421 for three consecutive failures yields 2 s, 2 s, 4 s. -/
theorem c4_amended_witness :
    ((3 : Rat) < 5) ∧
    (recordFailure ⟨0, false⟩ "421" 3 17).delaySecs = 2 ∧
    (recordFailure ⟨1, true⟩ "421" 3 17).delaySecs = 2 ∧
    (recordFailure ⟨2, true⟩ "421" 3 17).delaySecs = 4 := by
  have h5 : (3 : Rat) < 5 := by norm_num
  refine ⟨h5, ?_, ?_, ?_⟩
  · rw [(c4_amended ⟨0, false⟩ "421" 3 17 h5).2.1]
    decide
  · rw [(c4_amended ⟨1, true⟩ "421" 3 17 h5).2.1]
    decide
  · rw [(c4_amended ⟨2, true⟩ "421" 3 17 h5).2.1]
    decide

/-- C7: for two consecutive record_failure calls with error texts of
the same class under the same sync_interval, the returned delay of the
second call is at least that of the first, for every choice of the
time-derived jitter readings. -/
theorem c7_backoff_monotonic (msg1 msg2 : String) (si : Rat) (cm : ConnState)
    (nanos1 nanos2 : Nat) (hclass : errClass msg1 = errClass msg2) :
    (recordFailure cm msg1 si nanos1).delaySecs ≤
      (recordFailure (recordFailure cm msg1 si nanos1).cm msg2 si nanos2).delaySecs := by
  rw [recordFailure_delaySecs, recordFailure_delaySecs, recordFailure_cm]
  by_cases hf : si < 5
  · have hd : (decide (si < 5)) = true := decide_eq_true hf
    rw [hd, if_pos rfl]
    rw [failureDelay_congr true (isServerRejectionError msg2) (isNetworkError msg2)
      (isServerRejectionError msg1) (isNetworkError msg1)
      (baseDelay_congr_of_errClass true msg2 msg1 hclass.symm) (cm.failedAttempts + 1)
      nanos2 _]
    exact failureDelay_mono_fast _ _ _ _ _ _
  · have hd : (decide (si < 5)) = false := decide_eq_false hf
    rw [hd]
    simp only [Bool.false_eq_true, if_false]
    rw [failureDelay_congr false (isServerRejectionError msg2) (isNetworkError msg2)
      (isServerRejectionError msg1) (isNetworkError msg1)
      (baseDelay_congr_of_errClass false msg2 msg1 hclass.symm) (cm.failedAttempts + 1)
      nanos2 _]
    exact failureDelay_mono_normal _ _ _ _ _

/-- C7 witness: two consecutive network-class failures in normal mode
have non-decreasing delays. -/
theorem c7_backoff_monotonic_witness :
    errClass "timeout" = errClass "Connection RESET by peer" ∧
    (recordFailure ⟨0, false⟩ "timeout" 10 5).delaySecs ≤
      (recordFailure (recordFailure ⟨0, false⟩ "timeout" 10 5).cm
        "Connection RESET by peer" 10 9).delaySecs := by
  refine ⟨by decide, c7_backoff_monotonic "timeout" "Connection RESET by peer" 10
    ⟨0, false⟩ 5 9 (by decide)⟩

/-- C9: an error text that carries both a server-rejection signal and a
network signal is treated as a server rejection: the returned flag is
true, the sticky server_limit_detected flag is set, and the whole result
coincides with that of a pure rejection text, so the rejection base
delay is used rather than the network one. -/
theorem c9_dual_signal_rejection (cm : ConnState) (msg : String) (si : Rat)
    (nanos : Nat) (h1 : isServerRejectionError msg = true)
    (h2 : isNetworkError msg = true) :
    (recordFailure cm msg si nanos).isRejection = true ∧
    (recordFailure cm msg si nanos).cm.serverLimitDetected = true ∧
    recordFailure cm msg si nanos = recordFailure cm "421" si nanos := by
  have hA : isServerRejectionError "421" = true := by decide
  refine ⟨by rw [recordFailure_isRejection, h1], by rw [recordFailure_cm]; simp [h1], ?_⟩
  apply RFResult.ext
  · rw [recordFailure_isRejection, recordFailure_isRejection, h1, hA]
  · rw [recordFailure_delaySecs, recordFailure_delaySecs, h1, hA]
    exact failureDelay_congr _ true (isNetworkError msg) true (isNetworkError "421")
      (by rw [baseDelay_true_net, baseDelay_true_net _ (isNetworkError "421")]) _ _ _
  · rw [recordFailure_cm, recordFailure_cm, h1, hA]

/-- C9 witness: the text 421 timeout matches both classifiers and is
handled exactly like the pure rejection text 421. -/
theorem c9_dual_signal_rejection_witness :
    isServerRejectionError "421 timeout" = true ∧
    isNetworkError "421 timeout" = true ∧
    (recordFailure ⟨0, false⟩ "421 timeout" 3 0).isRejection = true ∧
    (recordFailure ⟨0, false⟩ "421 timeout" 3 0).cm.serverLimitDetected = true ∧
    recordFailure ⟨0, false⟩ "421 timeout" 3 0 = recordFailure ⟨0, false⟩ "421" 3 0 := by
  have h := c9_dual_signal_rejection ⟨0, false⟩ "421 timeout" 3 0 (by decide) (by decide)
  exact ⟨by decide, by decide, h.1, h.2.1, h.2.2⟩

theorem filter_and_filter (l : List MonitorEntry) (p q : MonitorEntry → Bool) :
    (l.filter p).filter (fun m => p m && q m) = l.filter (fun m => p m && q m) := by
  induction l with
  | nil => rfl
  | cons e rest ih =>
    by_cases hp : p e
    · simp [List.filter_cons, hp, ih]
    · simp [List.filter_cons, hp, ih]

/-- C5: conflict detection depends only on entries other than the
current instance (removing self-keyed entries leaves the result
unchanged, so a self entry is never flagged), and the result is
critical exactly when at least two other entries are in delete mode. -/
theorem c5_self_exclusion (mf : MonitorFile) (mode hn pf dir : String) :
    detectMonitorConflicts mf mode hn pf dir =
      detectMonitorConflicts (dropSelfEntries mf hn pf) mode hn pf dir ∧
    ((detectMonitorConflicts mf mode hn pf dir).map Prod.fst = some "critical" ↔
      2 ≤ (mf.monitors.filter fun m =>
        !(m.hostname == hn && m.profileName == pf) &&
          strToLower m.mode == "delete").length) := by
  constructor
  · have hdel := filter_and_filter mf.monitors
      (fun m => !(m.hostname == hn && m.profileName == pf))
      (fun m => strToLower m.mode == "delete")
    have hkeep := filter_and_filter mf.monitors
      (fun m => !(m.hostname == hn && m.profileName == pf))
      (fun m => strToLower m.mode == "keep")
    simp only [detectMonitorConflicts, dropSelfEntries, hdel, hkeep]
  · simp only [detectMonitorConflicts]
    split_ifs with h1 h2 h3 h4
    · exact ⟨fun _ => h1, fun _ => rfl⟩
    · exact iff_of_false
        (by simp [show ("warning" : String) ≠ "critical" from by decide]) h1
    · exact iff_of_false
        (by simp [show ("warning" : String) ≠ "critical" from by decide]) h1
    · exact iff_of_false
        (by simp [show ("info" : String) ≠ "critical" from by decide]) h1
    · exact iff_of_false (by simp) h1

theorem mem_upsertOurEntry (our : MonitorEntry) (hn pf : String)
    (l : List MonitorEntry) (e : MonitorEntry)
    (he : e ∈ upsertOurEntry our hn pf l) : e = our ∨ e ∈ l := by
  induction l with
  | nil =>
    simp [upsertOurEntry] at he
    exact Or.inl he
  | cons x rest ih =>
    simp only [upsertOurEntry] at he
    split_ifs at he with hx
    · rcases List.mem_cons.mp he with h | h
      · exact Or.inl h
      · exact Or.inr (List.mem_cons_of_mem _ h)
    · rcases List.mem_cons.mp he with h | h
      · exact Or.inr (h ▸ List.mem_cons_self _ _)
      · rcases ih h with h' | h'
        · exact Or.inl h'
        · exact Or.inr (List.mem_cons_of_mem _ h')

theorem our_mem_upsertOurEntry (our : MonitorEntry) (hn pf : String)
    (l : List MonitorEntry) : our ∈ upsertOurEntry our hn pf l := by
  induction l with
  | nil => simp [upsertOurEntry]
  | cons x rest ih =>
    simp only [upsertOurEntry]
    split_ifs with hx
    · exact List.mem_cons_self _ _
    · exact List.mem_cons_of_mem _ ih

theorem countOurKey_upsert (our : MonitorEntry) (hn pf : String)
    (l : List MonitorEntry)
    (hkey : (our.hostname == hn && our.profileName == pf) = true) :
    countOurKey (upsertOurEntry our hn pf l) hn pf =
      if countOurKey l hn pf = 0 then 1 else countOurKey l hn pf := by
  induction l with
  | nil => simp [upsertOurEntry, countOurKey, hkey]
  | cons x rest ih =>
    by_cases hx : (x.hostname == hn && x.profileName == pf) = true
    · simp [upsertOurEntry, countOurKey, hkey, hx, List.filter_cons]
    · have h1 : upsertOurEntry our hn pf (x :: rest) =
          x :: upsertOurEntry our hn pf rest := by
        simp [upsertOurEntry, hx]
      have h2 : countOurKey (x :: upsertOurEntry our hn pf rest) hn pf =
          countOurKey (upsertOurEntry our hn pf rest) hn pf := by
        simp [countOurKey, List.filter_cons, hx]
      have h3 : countOurKey (x :: rest) hn pf = countOurKey rest hn pf := by
        simp [countOurKey, List.filter_cons, hx]
      rw [h1, h2, h3, ih]

theorem countOurKey_filter_le (p : MonitorEntry → Bool) (l : List MonitorEntry)
    (hn pf : String) :
    countOurKey (l.filter p) hn pf ≤ countOurKey l hn pf := by
  unfold countOurKey
  exact List.Sublist.length_le ((List.filter_sublist l).filter _)

/-- C6, counterexample: when the document read from the server contains
two fresh entries with this instance key, the constructed document keeps
the duplicate (the upsert replaces only the first match), so it does not
contain exactly one entry with this instance key. -/
theorem c6_counterexample :
    (isFreshEntry (fun s => if s == "t" then some 1000 else none) 1000
      ⟨"2", "h", "p", "keep", "t"⟩ = true) ∧
    countOurKey
      (buildMonitorDoc (fun s => if s == "t" then some 1000 else none)
        (fun _ => "r") 1000 "h" "ip0" "p"
        ⟨[⟨"1", "h", "p", "keep", "t"⟩, ⟨"2", "h", "p", "keep", "t"⟩]⟩).monitors
      "h" "p" = 2 ∧
    ¬ countOurKey
      (buildMonitorDoc (fun s => if s == "t" then some 1000 else none)
        (fun _ => "r") 1000 "h" "ip0" "p"
        ⟨[⟨"1", "h", "p", "keep", "t"⟩, ⟨"2", "h", "p", "keep", "t"⟩]⟩).monitors
      "h" "p" = 1 := by
  refine ⟨by decide, by decide, by decide⟩

/-- C6, amended: provided the chrono serializer and parser round-trip at
the write time and the read document holds at most one entry keyed by
this instance, the constructed document contains only entries whose
last_seen parses to a time strictly newer than five minutes before the
write time (entries with unparseable timestamps are gone), exactly one
entry keyed by this instance, and that entry carries the fresh
timestamp, IP and the upload mode. -/
theorem c6_amended (parseTime : String → Option Int)
    (renderTime : Int → String) (now : Int) (hn ip pf : String)
    (existing : MonitorFile)
    (hround : parseTime (renderTime now) = some now)
    (hdup : countOurKey existing.monitors hn pf ≤ 1) :
    (∀ e ∈ (buildMonitorDoc parseTime renderTime now hn ip pf existing).monitors,
      ∃ t, parseTime e.lastSeen = some t ∧ now - 300 < t) ∧
    countOurKey
      (buildMonitorDoc parseTime renderTime now hn ip pf existing).monitors
      hn pf = 1 ∧
    mkOurEntry ip hn pf renderTime now ∈
      (buildMonitorDoc parseTime renderTime now hn ip pf existing).monitors := by
  refine ⟨?fresh, ?count, ?mem⟩
  case fresh =>
    intro e he
    rcases mem_upsertOurEntry _ _ _ _ _ he with h | h
    · subst h
      exact ⟨now, hround, by omega⟩
    · have hf := List.of_mem_filter h
      unfold isFreshEntry at hf
      rcases hp : parseTime e.lastSeen with _ | t
      · rw [hp] at hf
        simp at hf
      · rw [hp] at hf
        refine ⟨t, rfl, ?_⟩
        exact of_decide_eq_true hf
  case count =>
    have hkey : ((mkOurEntry ip hn pf renderTime now).hostname == hn &&
        (mkOurEntry ip hn pf renderTime now).profileName == pf) = true := by
      simp [mkOurEntry]
    simp only [buildMonitorDoc]
    rw [countOurKey_upsert _ _ _ _ hkey]
    have hle := countOurKey_filter_le (isFreshEntry parseTime now)
      existing.monitors hn pf
    have : countOurKey (existing.monitors.filter (isFreshEntry parseTime now))
        hn pf ≤ 1 := le_trans hle hdup
    split_ifs with h0
    · rfl
    · omega
  case mem =>
    exact our_mem_upsertOurEntry _ _ _ _

/-- C6 witness: the amended theorem at a concrete round-tripping parser
and an empty read document. -/
theorem c6_amended_witness :
    ((fun s => if s == "r" then some (5 : Int) else none) ((fun _ => "r") (5 : Int)) = some 5) ∧
    countOurKey (MonitorFile.mk []).monitors "h" "p" ≤ 1 ∧
    countOurKey
      (buildMonitorDoc (fun s => if s == "r" then some (5 : Int) else none)
        (fun _ => "r") 5 "h" "ip0" "p" ⟨[]⟩).monitors "h" "p" = 1 := by
  refine ⟨by decide, by decide, ?_⟩
  exact (c6_amended (fun s => if s == "r" then some (5 : Int) else none)
    (fun _ => "r") 5 "h" "ip0" "p" ⟨[]⟩ (by decide) (by decide)).2.1

theorem allowedComp_eq_not_skip (n : String) : allowedComp n = !skipName n := by
  simp [allowedComp, skipName, Bool.not_or]

theorem filter_map_comm {α β : Type} (f : α → β) (p : β → Bool) (l : List α) :
    (l.map f).filter p = (l.filter (fun a => p (f a))).map f := by
  induction l with
  | nil => rfl
  | cons a rest ih =>
    by_cases hp : p (f a)
    · simp [List.filter_cons, hp, ih]
    · simp [List.filter_cons, hp, ih]

mutual
/-- The walk of one entry keeps exactly its files all of whose path
components pass the hidden and FTPU-Sent filters. -/
theorem scanTree_eq : ∀ (t : FsTree) (rel : List String),
    scanTree t rel = ((allFilesTree t).filter (fun x => x.1.all allowedComp)).map
      (fun x => (rel ++ x.1, x.2))
  | FsTree.file n s, rel => by
    by_cases hskip : skipName n = true
    · have hall : allowedComp n = false := by
        rw [allowedComp_eq_not_skip, hskip]; rfl
      simp [scanTree, allFilesTree, hskip, List.filter_cons, hall]
    · have hall : allowedComp n = true := by
        rw [allowedComp_eq_not_skip, Bool.of_not_eq_true hskip]; rfl
      simp [scanTree, allFilesTree, hskip, List.filter_cons, hall]
  | FsTree.dir n es, rel => by
    by_cases hskip : skipName n = true
    · have hall : allowedComp n = false := by
        rw [allowedComp_eq_not_skip, hskip]; rfl
      simp [scanTree, allFilesTree, hskip, filter_map_comm, hall]
    · have hall : allowedComp n = true := by
        rw [allowedComp_eq_not_skip, Bool.of_not_eq_true hskip]; rfl
      rw [show scanTree (FsTree.dir n es) rel =
        (if skipName n then [] else scanForest es (rel ++ [n])) from rfl]
      rw [if_neg hskip, scanForest_eq es (rel ++ [n])]
      simp [allFilesTree, filter_map_comm, hall, List.append_assoc]
termination_by t => sizeOf t

/-- The walk of a forest keeps exactly the allowed files of each entry. -/
theorem scanForest_eq : ∀ (es : FsForest) (rel : List String),
    scanForest es rel = ((allFilesForest es).filter (fun x => x.1.all allowedComp)).map
      (fun x => (rel ++ x.1, x.2))
  | FsForest.nil, rel => rfl
  | FsForest.cons t rest, rel => by
    rw [show scanForest (FsForest.cons t rest) rel =
      scanTree t rel ++ scanForest rest rel from rfl]
    rw [scanTree_eq t rel, scanForest_eq rest rel]
    simp [allFilesForest, List.filter_append]
termination_by es => sizeOf es
end

/-- C2, counterexample: the active scanner does not apply the
temp/system patterns; a top-level file named Thumbs.db matches the
claimed pattern list yet is returned as a candidate. -/
theorem c2_counterexample :
    claimedTempPattern "Thumbs.db" = true ∧
    scanLocalDirectoryForFiles (FsForest.ofList [FsTree.file "Thumbs.db" 5]) =
      [("Thumbs.db", 5)] := by
  exact ⟨by decide, by decide⟩

/-- C2, amended: the scanner returns exactly the files all of whose
relative-path components (directories and filename alike) neither start
with a dot nor equal FTPU-Sent, each with its relative path from the
source root; the temp/system patterns are not filtered (beyond those
starting with a dot, which the hidden rule already covers). -/
theorem c2_amended (tree : FsForest) :
    scanLocalDirectoryForFiles tree =
      ((allFilesForest tree).filter (fun x => x.1.all allowedComp)).map
        (fun x => (String.intercalate "/" x.1, x.2)) := by
  unfold scanLocalDirectoryForFiles
  rw [scanForest_eq]
  simp [List.map_map, Function.comp]

theorem sessionWriteTotals_append (a b : List Ev) :
    sessionWriteTotals (a ++ b) = sessionWriteTotals a ++ sessionWriteTotals b := by
  simp [sessionWriteTotals]

theorem sessionWriteTotals_map_mkd (l : List String) :
    sessionWriteTotals (l.map Ev.mkd) = [] := by
  induction l with
  | nil => rfl
  | cons a r ih => simpa [sessionWriteTotals, List.filterMap_cons] using ih

theorem sessionWriteTotals_stor (x : String) :
    sessionWriteTotals [Ev.stor x] = [] := rfl

theorem sessionWriteTotals_upload (cfg : FTPConfig) (f l : String) :
    sessionWriteTotals (uploadFileEvents cfg f l) = [] := by
  unfold uploadFileEvents
  simp only [sessionWriteTotals_append, sessionWriteTotals_stor, List.append_nil]
  split_ifs <;> first | rfl | exact sessionWriteTotals_map_mkd _

theorem sessionWriteTotals_ite_notify (c : Prop) [Decidable c]
    (a b a' b' : String) :
    sessionWriteTotals (if c then [Ev.notify a b] else [Ev.notify a' b']) = [] := by
  split_ifs <;> rfl

theorem attempt_session_spec (cfg : FTPConfig) (mode : String)
    (hashes : List (String × Nat)) (xxh : String → Nat)
    (fname lpath : String) (env : AttemptEnv) (attempt : Nat)
    (s : FileStepState) :
    (sessionWriteTotals (processFileAttempt cfg mode hashes xxh fname lpath
        env attempt s).events = [] ∧
      (processFileAttempt cfg mode hashes xxh fname lpath env attempt s).state.st
        = s.st) ∨
    ((processFileAttempt cfg mode hashes xxh fname lpath env attempt
        s).isDone = true ∧
      (processFileAttempt cfg mode hashes xxh fname lpath env attempt
        s).state.st.totalFiles = s.st.totalFiles + 1 ∧
      sessionWriteTotals (processFileAttempt cfg mode hashes xxh fname lpath
        env attempt s).events =
        if (s.st.totalFiles + 1) % 3 = 0 then [s.st.totalFiles + 1] else []) := by
  obtain ⟨co, ce, lo, le, cw, sr, md, nw, uo, ue, mo, ut, na⟩ := env
  cases co
  · unfold processFileAttempt
    simp only [Bool.not_false, if_pos rfl]
    split_ifs <;> exact Or.inl ⟨rfl, rfl⟩
  · cases lo
    · unfold processFileAttempt
      simp only [Bool.not_false, Bool.not_true, Bool.false_eq_true, if_false,
        if_pos rfl]
      split_ifs <;> exact Or.inl ⟨rfl, rfl⟩
    · cases cw
      · unfold processFileAttempt
        simp only [Bool.not_false, Bool.not_true, Bool.false_eq_true, if_false,
          if_pos rfl]
        exact Or.inl ⟨rfl, rfl⟩
      · cases sr <;>
          (unfold processFileAttempt
           simp only [Bool.not_true, Bool.false_eq_true, if_false]) <;>
          first
          | exact Or.inl ⟨rfl, rfl⟩
          | (split_ifs <;>
              first
              | exact Or.inl ⟨rfl, rfl⟩
              | exact Or.inl ⟨by
                  simp only [StepRes.events, sessionWriteTotals_append,
                    sessionWriteTotals_upload, List.nil_append]
                  rfl, rfl⟩
              | (refine Or.inr ⟨rfl, by simp [StepRes.state, SessionState.addFileUpload], ?_⟩
                 simp only [StepRes.events, sessionWriteTotals_append,
                   sessionWriteTotals_upload, sessionWriteTotals_ite_notify,
                   List.nil_append]
                 simp_all [sessionWriteTotals, mkSessionReport,
                   SessionState.addFileUpload]))

theorem sessionWriteTotals_status_cons (a b : String) (l : List Ev) :
    sessionWriteTotals (Ev.status a b :: l) = sessionWriteTotals l := by
  simp [sessionWriteTotals, List.filterMap_cons]

theorem loop_session_spec (cfg : FTPConfig) (mode : String)
    (hashes : List (String × Nat)) (xxh : String → Nat)
    (fname lpath : String) (envs : Nat → AttemptEnv) :
    ∀ (fuel attempt : Nat) (s : FileStepState),
    (sessionWriteTotals (processFileLoop cfg mode hashes xxh fname lpath envs
        fuel attempt s).2.1 = [] ∧
      (processFileLoop cfg mode hashes xxh fname lpath envs fuel attempt
        s).2.2.st = s.st) ∨
    ((processFileLoop cfg mode hashes xxh fname lpath envs fuel attempt
        s).2.2.st.totalFiles = s.st.totalFiles + 1 ∧
      sessionWriteTotals (processFileLoop cfg mode hashes xxh fname lpath envs
        fuel attempt s).2.1 =
        if (s.st.totalFiles + 1) % 3 = 0 then [s.st.totalFiles + 1] else []) := by
  intro fuel
  induction fuel with
  | zero => exact fun attempt s => Or.inl ⟨rfl, rfl⟩
  | succ fuel ih =>
    intro attempt s
    have hA := attempt_session_spec cfg mode hashes xxh fname lpath
      (envs (attempt + 1)) (attempt + 1) s
    cases hres : processFileAttempt cfg mode hashes xxh fname lpath
        (envs (attempt + 1)) (attempt + 1) s with
    | done ok evs s' =>
      rw [hres] at hA
      simp only [StepRes.events, StepRes.state] at hA
      simp only [processFileLoop, hres]
      rcases hA with h | ⟨_, h1, h2⟩
      · exact Or.inl h
      · exact Or.inr ⟨h1, h2⟩
    | retry evs s' =>
      rw [hres] at hA
      simp only [StepRes.events, StepRes.state, StepRes.isDone] at hA
      rcases hA with ⟨hevs, hst⟩ | ⟨hdone, _⟩
      · have hrest := ih (attempt + 1) s'
        simp only [processFileLoop, hres]
        rw [hst] at hrest
        rcases hrest with ⟨h1, h2⟩ | ⟨h1, h2⟩
        · exact Or.inl ⟨by rw [sessionWriteTotals_append, hevs, h1]; rfl, h2⟩
        · exact Or.inr ⟨h1, by rw [sessionWriteTotals_append, hevs, h2]; rfl⟩
      · exact absurd hdone (by simp)

theorem one_file_session_spec (cfg : FTPConfig) (mode : String)
    (hashes : List (String × Nat)) (xxh : String → Nat) (job : FileJob)
    (sf sfe : Bool) (s : FileStepState) :
    (sessionWriteTotals (processOneFile cfg mode hashes xxh job sf sfe s).2.1
        = [] ∧
      (processOneFile cfg mode hashes xxh job sf sfe s).2.2.st = s.st) ∨
    ((processOneFile cfg mode hashes xxh job sf sfe s).2.2.st.totalFiles =
        s.st.totalFiles + 1 ∧
      sessionWriteTotals (processOneFile cfg mode hashes xxh job sf sfe s).2.1 =
        if (s.st.totalFiles + 1) % 3 = 0 then [s.st.totalFiles + 1] else []) := by
  by_cases hsf : (sf && sfe) = true
  · simp [processOneFile, hsf, sessionWriteTotals]
  · simp only [processOneFile, if_neg hsf]
    have h := loop_session_spec cfg mode hashes xxh job.filename job.localPath
      job.envs 3 0 s
    rcases h with ⟨h1, h2⟩ | ⟨h1, h2⟩
    · exact Or.inl ⟨by rw [sessionWriteTotals_status_cons]; exact h1, h2⟩
    · exact Or.inr ⟨h1, by rw [sessionWriteTotals_status_cons]; exact h2⟩

theorem fold_session_spec (cfg : FTPConfig) (mode : String)
    (hashes : List (String × Nat)) (xxh : String → Nat) (sf sfe : Bool) :
    ∀ (jobs : List FileJob) (acc : List Ev × FileStepState × Nat),
    acc.2.1.st.totalFiles ≤
      (jobs.foldl (uploadFoldStep cfg mode hashes xxh sf sfe)
        acc).2.1.st.totalFiles ∧
    sessionWriteTotals
        (jobs.foldl (uploadFoldStep cfg mode hashes xxh sf sfe) acc).1 =
      sessionWriteTotals acc.1 ++
        (List.range' (acc.2.1.st.totalFiles + 1)
          ((jobs.foldl (uploadFoldStep cfg mode hashes xxh sf sfe)
            acc).2.1.st.totalFiles - acc.2.1.st.totalFiles)).filter
          (fun m => m % 3 = 0) := by
  intro jobs
  induction jobs with
  | nil =>
    intro acc
    exact ⟨le_rfl, by simp⟩
  | cons job rest ih =>
    intro acc
    rw [List.foldl_cons]
    have e1 : (uploadFoldStep cfg mode hashes xxh sf sfe acc job).1 =
        acc.1 ++ (processOneFile cfg mode hashes xxh job sf sfe acc.2.1).2.1 := rfl
    have e2 : (uploadFoldStep cfg mode hashes xxh sf sfe acc job).2.1 =
        (processOneFile cfg mode hashes xxh job sf sfe acc.2.1).2.2 := rfl
    have hstep := one_file_session_spec cfg mode hashes xxh job sf sfe acc.2.1
    have hrest := ih (uploadFoldStep cfg mode hashes xxh sf sfe acc job)
    rcases hrest with ⟨hle, heq⟩
    rcases hstep with ⟨h1, h2⟩ | ⟨h1, h2⟩
    · have h1' : sessionWriteTotals
          (uploadFoldStep cfg mode hashes xxh sf sfe acc job).1 =
          sessionWriteTotals acc.1 := by
        rw [e1, sessionWriteTotals_append, h1, List.append_nil]
      have h2' : (uploadFoldStep cfg mode hashes xxh sf sfe acc job).2.1.st =
          acc.2.1.st := by
        rw [e2, h2]
      rw [h1', h2'] at heq
      rw [h2'] at hle
      exact ⟨hle, heq⟩
    · have h1' : (uploadFoldStep cfg mode hashes xxh sf sfe acc
          job).2.1.st.totalFiles = acc.2.1.st.totalFiles + 1 := by
        rw [e2]; exact h1
      have h2' : sessionWriteTotals
          (uploadFoldStep cfg mode hashes xxh sf sfe acc job).1 =
          sessionWriteTotals acc.1 ++
            (if (acc.2.1.st.totalFiles + 1) % 3 = 0
              then [acc.2.1.st.totalFiles + 1] else []) := by
        rw [e1, sessionWriteTotals_append, h2]
      rw [h1'] at hle heq
      rw [h2'] at heq
      refine ⟨by omega, ?_⟩
      rw [heq, List.append_assoc]
      congr 1
      have hm : (rest.foldl (uploadFoldStep cfg mode hashes xxh sf sfe)
          (uploadFoldStep cfg mode hashes xxh sf sfe acc job)).2.1.st.totalFiles
          - acc.2.1.st.totalFiles =
          ((rest.foldl (uploadFoldStep cfg mode hashes xxh sf sfe)
            (uploadFoldStep cfg mode hashes xxh sf sfe acc
              job)).2.1.st.totalFiles - (acc.2.1.st.totalFiles + 1)) + 1 := by
        omega
      rw [hm, List.range'_succ, List.filter_cons]
      by_cases h3 : (acc.2.1.st.totalFiles + 1) % 3 = 0
      · simp [h3]
      · simp [h3]

theorem sessionFileAfter_of_no_writes (render : SessionReport → String)
    (evs : List Ev) :
    sessionWriteTotals evs = [] →
      ∀ init, sessionFileAfter render init evs = init := by
  induction evs with
  | nil => exact fun _ _ => rfl
  | cons e rest ih =>
    intro h init
    cases e with
    | sessionWrite r =>
      exact absurd h (by simp [sessionWriteTotals, List.filterMap_cons])
    | status a b => exact ih h init
    | notify a b => exact ih h init
    | stor a => exact ih h init
    | mkd a => exact ih h init
    | monitorRead a => exact ih h init
    | resultWrite a b => exact ih h init

/-- C8: the upload phase writes the session file exactly after every
third successful upload (reports carrying running totals 3, 6, ...) and
once more at end of iteration when at least one file was uploaded; when
the phase ends with zero files in the session state it performs no
session-file write at all, so the session file keeps its prior
content. -/
theorem c8_session_report (cfg : FTPConfig) (mode : String)
    (dbHashes : List (String × Nat)) (xxh : String → Nat)
    (jobs : List FileJob) (sf sfe : Bool) (cm : ConnState) (mp : Nat) :
    sessionWriteTotals
        (processFiles cfg mode dbHashes xxh jobs sf sfe cm mp).events =
      (List.range' 1
        (processFiles cfg mode dbHashes xxh jobs sf sfe cm
          mp).finalState.totalFiles).filter (fun m => m % 3 = 0) ++
        (if (processFiles cfg mode dbHashes xxh jobs sf sfe cm
            mp).finalState.totalFiles = 0 then []
          else [(processFiles cfg mode dbHashes xxh jobs sf sfe cm
            mp).finalState.totalFiles]) ∧
    ((processFiles cfg mode dbHashes xxh jobs sf sfe cm
        mp).finalState.totalFiles = 0 →
      ∀ (render : SessionReport → String) (init : String),
        sessionFileAfter render init
          (processFiles cfg mode dbHashes xxh jobs sf sfe cm mp).events = init) := by
  by_cases hearly :
      (decide (0 < cfg.stabilizationInterval) && jobs.isEmpty) = true
  · have hP : processFiles cfg mode dbHashes xxh jobs sf sfe cm mp =
        { successCount := 0,
          events := [Ev.status "Preparing parallel processing"
            (toString jobs.length ++ " total files")],
          finalState := SessionState.new, cm := cm, processedCounter := 0 } := by
      unfold processFiles
      rw [if_pos hearly]
    rw [hP]
    refine ⟨by simp [sessionWriteTotals, SessionState.new, List.filterMap_cons], ?_⟩
    intro _ render init
    exact sessionFileAfter_of_no_writes render _
      (by simp [sessionWriteTotals, List.filterMap_cons]) init
  · have hP : processFiles cfg mode dbHashes xxh jobs sf sfe cm mp =
        (let existingHashes := if mode == "keep" then dbHashes else []
         let evs0 := [Ev.status "Preparing parallel processing"
           (toString jobs.length ++ " total files")]
         let folded := jobs.foldl
           (uploadFoldStep cfg mode existingHashes xxh sf sfe)
           ([], { cm := cm, st := SessionState.new, processed := 0 }, 0)
         let succ := folded.2.2
         let failed := jobs.length - succ
         let st := folded.2.1.st
         let statusMessage :=
           if 0 < failed then
             "Processed " ++ toString succ ++ "/" ++ toString jobs.length ++
               " files (" ++ toString failed ++ " failed, will retry next cycle)"
           else "Processed " ++ toString succ ++ " files successfully"
         let finEvs := [Ev.status "Finished" statusMessage] ++
           (if 0 < st.totalFiles then [Ev.sessionWrite (mkSessionReport cfg st)]
            else [])
         { successCount := succ, events := evs0 ++ folded.1 ++ finEvs,
           finalState := st, cm := folded.2.1.cm,
           processedCounter := folded.2.1.processed }) := by
      unfold processFiles
      rw [if_neg hearly]
    rw [hP]
    dsimp only
    have hfold := fold_session_spec cfg mode
      (if mode == "keep" then dbHashes else []) xxh sf sfe jobs
      ([], { cm := cm, st := SessionState.new, processed := 0 }, 0)
    rcases hfold with ⟨hle, heq⟩
    dsimp only at hle heq
    have hnew : SessionState.new.totalFiles = 0 := rfl
    rw [hnew] at hle heq
    have hPrep : sessionWriteTotals [Ev.status "Preparing parallel processing"
        (toString jobs.length ++ " total files")] = [] := rfl
    have hFin : ∀ msg : String,
        sessionWriteTotals [Ev.status "Finished" msg] = [] := fun _ => rfl
    constructor
    · rw [sessionWriteTotals_append, sessionWriteTotals_append,
        sessionWriteTotals_append, heq, hPrep, hFin]
      simp only [List.nil_append, List.append_nil, Nat.sub_zero, Nat.zero_add]
      by_cases hN : (jobs.foldl (uploadFoldStep cfg mode
          (if mode == "keep" then dbHashes else []) xxh sf sfe)
          ([], { cm := cm, st := SessionState.new, processed := 0 },
            0)).2.1.st.totalFiles = 0
      · rw [hN, if_pos rfl, if_neg (by omega)]
        rfl
      · rw [if_neg hN, if_pos (Nat.pos_of_ne_zero hN)]
        rfl
    · intro hN render init
      apply sessionFileAfter_of_no_writes
      rw [sessionWriteTotals_append, sessionWriteTotals_append,
        sessionWriteTotals_append, heq, hPrep, hFin, hN]
      simp [sessionWriteTotals]

/-- C8 witness: with no candidates the phase leaves the session file at
its previous content and performs no write. -/
theorem c8_session_report_witness :
    (processFiles ⟨"s", 21, "u", "p", "/d", "/s", true, 3, 0, 4, false,
        "cid", "cn", "sid"⟩ "upload" [] (fun _ => 0) [] false false
        ⟨0, false⟩ 4).finalState.totalFiles = 0 ∧
    sessionFileAfter (fun _ => "new") "old"
      (processFiles ⟨"s", 21, "u", "p", "/d", "/s", true, 3, 0, 4, false,
        "cid", "cn", "sid"⟩ "upload" [] (fun _ => 0) [] false false
        ⟨0, false⟩ 4).events = "old" := by
  refine ⟨by decide, ?_⟩
  exact (c8_session_report ⟨"s", 21, "u", "p", "/d", "/s", true, 3, 0, 4, false,
    "cid", "cn", "sid"⟩ "upload" [] (fun _ => 0) [] false false
    ⟨0, false⟩ 4).2 (by decide) (fun _ => "new") "old"

/-- C1: in keep mode, a candidate whose stored fingerprint equals the
freshly computed fingerprint for its current remote (size, mtime) is
skipped: the worker issues no STOR, emits the Skipped (unchanged)
status, counts the file as processed, and leaves the session state and
connection manager untouched.  The engine instantiates the mode string
at the literal "upload" (engineMode), under which this branch is
guarded off. -/
theorem c1_keep_skip (cfg : FTPConfig) (hashes : List (String × Nat))
    (xxh : String → Nat) (fname lpath : String) (envs : Nat → AttemptEnv)
    (s : FileStepState) (sz : Nat)
    (hconn : (envs 1).connectOk = true) (hlogin : (envs 1).loginOk = true)
    (hcwd : (envs 1).cwdOk = true)
    (hsize : (envs 1).sizeRes = SizeRes.found sz)
    (hhash : hashes.lookup (lpath ++ "|" ++ fname) =
      some (computeFileHash xxh fname lpath sz
        ((envs 1).mdtm.getD (envs 1).now))) :
    processOneFile cfg "keep" hashes xxh ⟨fname, lpath, envs⟩ false false s =
      (true,
        [Ev.status "Processing" fname, Ev.status "Skipped (unchanged)" fname],
        { s with processed := s.processed + 1 }) := by
  have hA : processFileAttempt cfg "keep" hashes xxh fname lpath (envs 1) 1 s =
      StepRes.done true [Ev.status "Skipped (unchanged)" fname]
        { s with processed := s.processed + 1 } := by
    unfold processFileAttempt
    rw [hconn, hlogin, hcwd, hsize]
    simp only [Bool.not_true, Bool.false_eq_true, if_false]
    rw [if_pos ?hskip]
    case hskip =>
      rw [hhash]
      simp
  unfold processOneFile
  rw [if_neg (by simp)]
  unfold processFileLoop
  rw [hA]

/-- C1 witness: a concrete candidate with a matching stored fingerprint
is skipped without a STOR. -/
theorem c1_keep_skip_witness :
    (⟨true, "", true, "", true, SizeRes.found 10, some 111, 999, true, "",
        true, 2, 0⟩ : AttemptEnv).connectOk = true ∧
    List.lookup ("/src/a/b.txt|a/b.txt")
        [("/src/a/b.txt|a/b.txt", (fun _ : String => 7) "x")] =
      some (computeFileHash (fun _ => 7) "a/b.txt" "/src/a/b.txt" 10
        ((some (111 : Int)).getD 999)) ∧
    processOneFile ⟨"s", 21, "u", "p", "/d", "/src", true, 3, 0, 4, false,
        "cid", "cn", "sid"⟩ "keep"
      [("/src/a/b.txt|a/b.txt", 7)] (fun _ => 7)
      ⟨"a/b.txt", "/src/a/b.txt",
        fun _ => ⟨true, "", true, "", true, SizeRes.found 10, some 111, 999,
          true, "", true, 2, 0⟩⟩ false false ⟨⟨0, false⟩, SessionState.new, 0⟩ =
      (true, [Ev.status "Processing" "a/b.txt",
        Ev.status "Skipped (unchanged)" "a/b.txt"],
        ⟨⟨0, false⟩, SessionState.new, 1⟩) := by
  refine ⟨rfl, by decide, ?_⟩
  exact c1_keep_skip ⟨"s", 21, "u", "p", "/d", "/src", true, 3, 0, 4, false,
    "cid", "cn", "sid"⟩ [("/src/a/b.txt|a/b.txt", 7)] (fun _ => 7)
    "a/b.txt" "/src/a/b.txt"
    (fun _ => ⟨true, "", true, "", true, SizeRes.found 10, some 111, 999,
      true, "", true, 2, 0⟩) ⟨⟨0, false⟩, SessionState.new, 0⟩ 10
    rfl rfl rfl rfl (by decide)

theorem peerFilter_append (a b : List Ev) :
    peerFilter (a ++ b) = peerFilter a ++ peerFilter b := by
  simp [peerFilter]

theorem peerFilter_map_mkd (l : List String) :
    peerFilter (l.map Ev.mkd) = [] := by
  induction l with
  | nil => rfl
  | cons a r ih => simpa [peerFilter, List.filter_cons, Ev.isMonitorRead,
      Ev.isMonitorWarn] using ih

theorem peerFilter_upload (cfg : FTPConfig) (f l : String) :
    peerFilter (uploadFileEvents cfg f l) = [] := by
  unfold uploadFileEvents
  simp only [peerFilter_append]
  rw [show peerFilter [Ev.stor (if cfg.respectFilePaths then f
    else lastPathComponent l f)] = [] from rfl]
  split_ifs <;> first | rfl | (rw [peerFilter_map_mkd]; rfl)

theorem peerFilter_attempt (cfg : FTPConfig) (mode : String)
    (hashes : List (String × Nat)) (xxh : String → Nat)
    (fname lpath : String) (env : AttemptEnv) (attempt : Nat)
    (s : FileStepState) :
    peerFilter (processFileAttempt cfg mode hashes xxh fname lpath env attempt
      s).events = [] := by
  obtain ⟨co, ce, lo, le, cw, sr, md, nw, uo, ue, mo, ut, na⟩ := env
  cases co
  · unfold processFileAttempt
    simp only [Bool.not_false, if_pos rfl]
    split_ifs <;> rfl
  · cases lo
    · unfold processFileAttempt
      simp only [Bool.not_false, Bool.not_true, Bool.false_eq_true, if_false,
        if_pos rfl]
      split_ifs <;> rfl
    · cases cw
      · unfold processFileAttempt
        simp only [Bool.not_false, Bool.not_true, Bool.false_eq_true, if_false,
          if_pos rfl]
        rfl
      · cases sr <;>
          (unfold processFileAttempt
           simp only [Bool.not_true, Bool.false_eq_true, if_false]) <;>
          first
          | rfl
          | (split_ifs <;>
              first
              | rfl
              | (simp only [StepRes.events, peerFilter_append, peerFilter_upload,
                  List.nil_append]
                 rfl))

theorem peerFilter_loop (cfg : FTPConfig) (mode : String)
    (hashes : List (String × Nat)) (xxh : String → Nat)
    (fname lpath : String) (envs : Nat → AttemptEnv) :
    ∀ (fuel attempt : Nat) (s : FileStepState),
    peerFilter (processFileLoop cfg mode hashes xxh fname lpath envs fuel
      attempt s).2.1 = [] := by
  intro fuel
  induction fuel with
  | zero => exact fun _ _ => rfl
  | succ fuel ih =>
    intro attempt s
    have hA := peerFilter_attempt cfg mode hashes xxh fname lpath
      (envs (attempt + 1)) (attempt + 1) s
    cases hres : processFileAttempt cfg mode hashes xxh fname lpath
        (envs (attempt + 1)) (attempt + 1) s with
    | done ok evs s' =>
      rw [hres] at hA
      simp only [StepRes.events] at hA
      simp only [processFileLoop, hres]
      exact hA
    | retry evs s' =>
      rw [hres] at hA
      simp only [StepRes.events] at hA
      simp only [processFileLoop, hres]
      rw [peerFilter_append, hA, ih (attempt + 1) s']
      rfl

theorem peerFilter_one_file (cfg : FTPConfig) (mode : String)
    (hashes : List (String × Nat)) (xxh : String → Nat) (job : FileJob)
    (sf sfe : Bool) (s : FileStepState) :
    peerFilter (processOneFile cfg mode hashes xxh job sf sfe s).2.1 = [] := by
  by_cases hsf : (sf && sfe) = true
  · simp [processOneFile, hsf]
    rfl
  · simp only [processOneFile, if_neg hsf]
    have h := peerFilter_loop cfg mode hashes xxh job.filename job.localPath
      job.envs 3 0 s
    simpa [peerFilter, List.filter_cons, Ev.isMonitorRead, Ev.isMonitorWarn]
      using h

theorem peerFilter_fold (cfg : FTPConfig) (mode : String)
    (hashes : List (String × Nat)) (xxh : String → Nat) (sf sfe : Bool) :
    ∀ (jobs : List FileJob) (acc : List Ev × FileStepState × Nat),
    peerFilter (jobs.foldl (uploadFoldStep cfg mode hashes xxh sf sfe) acc).1 =
      peerFilter acc.1 := by
  intro jobs
  induction jobs with
  | nil => exact fun _ => rfl
  | cons job rest ih =>
    intro acc
    rw [List.foldl_cons, ih]
    have e1 : (uploadFoldStep cfg mode hashes xxh sf sfe acc job).1 =
        acc.1 ++ (processOneFile cfg mode hashes xxh job sf sfe acc.2.1).2.1 := rfl
    rw [e1, peerFilter_append, peerFilter_one_file, List.append_nil]

theorem peerFilter_processFiles (cfg : FTPConfig) (mode : String)
    (dbHashes : List (String × Nat)) (xxh : String → Nat)
    (jobs : List FileJob) (sf sfe : Bool) (cm : ConnState) (mp : Nat) :
    peerFilter (processFiles cfg mode dbHashes xxh jobs sf sfe cm mp).events
      = [] := by
  unfold processFiles
  split_ifs <;> dsimp only <;>
    first
    | rfl
    | (rw [peerFilter_append, peerFilter_append, peerFilter_fold]
       rw [show peerFilter [Ev.status "Preparing parallel processing"
         (toString jobs.length ++ " total files")] = [] from rfl]
       simp only [List.nil_append, peerFilter_append]
       split_ifs <;> rfl)

theorem peerFilter_scan (cfg : FTPConfig) (env : IterEnv) :
    peerFilter (scanLocalPhase cfg env).1 = [] := by
  unfold scanLocalPhase
  split_ifs <;> rfl

/-- C3, amended: the active sync-loop iteration never performs the
listing-aware read of _monitored.json and never emits any notification
on the monitor_warning channel, on any iteration number; the mod-3
sampled peer check and its clear message exist only in the
commented-out legacy scanner. -/
theorem c3_amended (cfg : FTPConfig) (xxh : String → Nat)
    (dbHashes : List (String × Nat)) (env : IterEnv) (iteration : Nat)
    (cm : ConnState) :
    peerFilter (processSingleIteration cfg xxh dbHashes env iteration cm).1
      = [] := by
  unfold processSingleIteration
  by_cases hc : (!env.connectOk) = true
  · rw [if_pos hc]
    dsimp only
    split_ifs <;> rfl
  · rw [if_neg hc]
    by_cases hl : (!env.loginOk) = true
    · rw [if_pos hl]
      rfl
    · rw [if_neg hl]
      dsimp only
      by_cases hs : (scanLocalPhase cfg env).2.isEmpty = true
      · rw [if_pos hs]
        dsimp only
        simp only [peerFilter_append, peerFilter_scan]
        rfl
      · rw [if_neg hs]
        dsimp only
        simp only [peerFilter_append, peerFilter_scan, peerFilter_processFiles]
        rfl

/-- C3, counterexample: a fully successful iteration with iteration
number 1 (which satisfies 1 mod 3 = 1) performs no _monitored.json read
and sends nothing on the monitor_warning channel, although it does scan,
upload one file and write a result. -/
theorem c3_counterexample :
    (1 % 3 = 1) ∧
    (processSingleIteration
      ⟨"s", 21, "u", "p", "/d", "/src", true, 3, 0, 4, false, "cid", "cn",
        "sid"⟩ (fun _ => 7) []
      ⟨true, "", 0, true, "", 0, false, false, true,
        FsForest.ofList [FsTree.file "f.bin" 4],
        fun _ _ => ⟨true, "", true, "", true, SizeRes.found 4, some 1, 9,
          true, "", true, 2, 0⟩⟩
      1 ⟨0, false⟩).1.filter Ev.isMonitorRead = [] ∧
    (processSingleIteration
      ⟨"s", 21, "u", "p", "/d", "/src", true, 3, 0, 4, false, "cid", "cn",
        "sid"⟩ (fun _ => 7) []
      ⟨true, "", 0, true, "", 0, false, false, true,
        FsForest.ofList [FsTree.file "f.bin" 4],
        fun _ _ => ⟨true, "", true, "", true, SizeRes.found 4, some 1, 9,
          true, "", true, 2, 0⟩⟩
      1 ⟨0, false⟩).1.filter Ev.isMonitorWarn = [] ∧
    Ev.resultWrite true 1 ∈ (processSingleIteration
      ⟨"s", 21, "u", "p", "/d", "/src", true, 3, 0, 4, false, "cid", "cn",
        "sid"⟩ (fun _ => 7) []
      ⟨true, "", 0, true, "", 0, false, false, true,
        FsForest.ofList [FsTree.file "f.bin" 4],
        fun _ _ => ⟨true, "", true, "", true, SizeRes.found 4, some 1, 9,
          true, "", true, 2, 0⟩⟩
      1 ⟨0, false⟩).1 := by
  refine ⟨rfl, by decide, by decide, by decide⟩
theorem lookup_removeSession (reg : List (String × Nat)) (id : String)
    (hnd : (reg.map Prod.fst).Nodup) :
    lookupSession (removeSession reg id) id = none := by
  induction reg with
  | nil => rfl
  | cons p rest ih =>
    rw [List.map_cons, List.nodup_cons] at hnd
    by_cases h : (p.1 == id) = true
    · have hid : p.1 = id := by simpa using h
      have hnone : List.find? (fun q => q.1 == id) rest = none := by
        rw [List.find?_eq_none]
        intro q hq
        simp only [beq_iff_eq]
        intro he
        exact hnd.1 (by rw [hid, ← he]; exact List.mem_map_of_mem _ hq)
      simp [removeSession, List.eraseP_cons, h, lookupSession, hnone]
    · have h2 : (p.1 == id) = false := eq_false_of_ne_true h
      have ihh := ih hnd.2
      simp only [removeSession, List.eraseP_cons, h2, cond_false]
      simp only [removeSession, lookupSession] at ihh ⊢
      rw [List.find?_cons_of_neg _ (by simp [h2])]
      exact ihh

theorem rustFtpStop_some (st : StopState) (id : String) (fid : Nat)
    (h : lookupSession st.registry id = some fid) :
    rustFtpStop st id =
      ⟨0, ⟨removeSession st.registry id,
        fun x => if x = fid then true else st.flags x⟩, false⟩ := by
  simp [rustFtpStop, h]

theorem rustFtpStop_none (st : StopState) (id : String)
    (h : lookupSession st.registry id = none) :
    rustFtpStop st id = ⟨-3, st, false⟩ := by
  simp [rustFtpStop, h]

/-- C10: rust_ftp_stop called with a session id absent from the registry
(including any second call with the same id after a successful stop,
provided registry keys are unique as they are in a HashMap) returns -3
and leaves the registry and every shutdown flag unchanged; called with a
registered id it removes exactly that entry (no other entry appears or
disappears), sets only the shutdown flag of that session, and returns 0
without joining the worker thread. -/
theorem c10_stop_semantics (st : StopState) (id : String)
    (hnd : (st.registry.map Prod.fst).Nodup) :
    (lookupSession st.registry id = none →
      rustFtpStop st id = ⟨-3, st, false⟩) ∧
    ∀ fid, lookupSession st.registry id = some fid →
      (rustFtpStop st id).ret = 0 ∧
      (rustFtpStop st id).joinsWorker = false ∧
      lookupSession (rustFtpStop st id).state.registry id = none ∧
      (∀ q ∈ st.registry, q.1 ≠ id → q ∈ (rustFtpStop st id).state.registry) ∧
      (∀ q ∈ (rustFtpStop st id).state.registry, q ∈ st.registry) ∧
      (rustFtpStop st id).state.flags fid = true ∧
      (∀ x, x ≠ fid → (rustFtpStop st id).state.flags x = st.flags x) ∧
      rustFtpStop (rustFtpStop st id).state id =
        ⟨-3, (rustFtpStop st id).state, false⟩ := by
  constructor
  · intro h
    exact rustFtpStop_none st id h
  · intro fid hfid
    rw [rustFtpStop_some st id fid hfid]
    refine ⟨rfl, rfl, ?_, ?_, ?_, if_pos rfl, ?_, ?_⟩
    · exact lookup_removeSession st.registry id hnd
    · intro q hq hne
      exact (List.mem_eraseP_of_neg (by simpa using hne)).mpr hq
    · intro q hq
      exact List.mem_of_mem_eraseP hq
    · intro x hx
      exact if_neg hx
    · exact rustFtpStop_none _ id (lookup_removeSession st.registry id hnd)

theorem c10_stop_semantics_witness :
    ((([("a", 0), ("b", 1)] : List (String × Nat)).map Prod.fst).Nodup) ∧
    (rustFtpStop ⟨[("a", 0), ("b", 1)], fun _ => false⟩ "a").ret = 0 ∧
    (rustFtpStop ⟨[("a", 0), ("b", 1)], fun _ => false⟩ "a").state.flags 0 = true ∧
    rustFtpStop (rustFtpStop ⟨[("a", 0), ("b", 1)], fun _ => false⟩ "a").state "a" =
      ⟨-3, (rustFtpStop ⟨[("a", 0), ("b", 1)], fun _ => false⟩ "a").state, false⟩ := by
  have h := c10_stop_semantics ⟨[("a", 0), ("b", 1)], fun _ => false⟩ "a" (by decide)
  have h2 := h.2 0 (by decide)
  exact ⟨by decide, h2.1, h2.2.2.2.2.2.1, h2.2.2.2.2.2.2.2⟩
